import Mathlib

/-!
Verification of the STL → glTF/GLB converter `stl_to_gltf_custom`
(`src/main.py`, lines 32-268) of the structviz3d-api repository.

The embedding is a shallow model of the converter:
* input bytes are a `List ℕ` (each entry one byte, 0-255 in practice);
* IEEE-754 single-precision values are decoded exactly into `ℚ`
  (exponent 255, i.e. infinity/NaN, is mapped to the corresponding
  out-of-range finite rational; the Python code raises on those inputs
  when calling `int()`, and no claim exercises them);
* the Python float arithmetic `int(x * 100000) / 100000` is modelled over
  `ℚ`: for `x` a decoded float32 the product `x * 100000` is exactly
  representable in a double (the mantissa needs at most 24 + 12 bits), so
  the truncation is exact, and the final division never merges two
  distinct quantized keys (the spacing of the results always exceeds the
  double rounding error), hence the rational model is observationally
  faithful to the dictionary keys and comparisons of the code;
* the insertion-ordered Python dict `vertices` is modelled by the list of
  keys in first-insertion order, lookup being position of first occurrence;
* the glTF JSON document is modelled by the record of numeric fields that
  the code interpolates into its `gltf2` template (lines 120-201);
* the serialization of a vertex coordinate to 4 bytes (`struct.pack` of a
  float) is an abstract parameter `enc` constrained to produce 4 bytes,
  since every byte-layout claim depends only on that length.
-/

namespace StructViz

/-- Little-endian 4-byte encoding of an unsigned 32-bit value, as produced
by `struct.pack("<I", n)`. -/
def u32le (n : ℕ) : List ℕ :=
  [n % 256, n / 256 % 256, n / 65536 % 256, n / 16777216 % 256]

/-- Rounding up to the next multiple of 4, the model of the Python
expression `(n + 3) & ~3` (clearing the low two bits of `n + 3`). -/
def pad4 (n : ℕ) : ℕ := (n + 3) / 4 * 4

/-- Byte of the input at offset `i`; reads past the end yield 0 (the
claims only use this on size-checked inputs, where it never happens). -/
def byteAt (bs : List ℕ) (i : ℕ) : ℕ := bs.getD i 0

/-- Exact value of the IEEE-754 single-precision number stored in the four
bytes `b0 b1 b2 b3` (little endian), as a rational.  A normal number with
exponent field `e` and mantissa field `m` is `±(2^23 + m) · 2^e / 2^150`;
a subnormal is `±m / 2^149`.  Exponent field 255 (infinity/NaN) is mapped
to the same formula, an out-of-range finite rational. -/
def decodeF32 (b0 b1 b2 b3 : ℕ) : ℚ :=
  let bits : ℕ := b0 + 256 * b1 + 65536 * b2 + 16777216 * b3
  let sign : ℕ := bits / 2 ^ 31
  let expo : ℕ := bits / 2 ^ 23 % 256
  let mant : ℕ := bits % 2 ^ 23
  let mag : ℚ :=
    if expo = 0 then (mant : ℚ) / 2 ^ 149
    else ((2 ^ 23 + mant : ℕ) : ℚ) * 2 ^ expo / 2 ^ 150
  if sign = 1 then -mag else mag

/-- Float32 of the input stored (little endian) at byte offset `i`. -/
def f32At (bs : List ℕ) (i : ℕ) : ℚ :=
  decodeF32 (byteAt bs i) (byteAt bs (i + 1)) (byteAt bs (i + 2)) (byteAt bs (i + 3))

/-- Vector of three consecutive float32 values starting at byte offset `i`. -/
def vec3At (bs : List ℕ) (i : ℕ) : ℚ × ℚ × ℚ :=
  (f32At bs i, f32At bs (i + 4), f32At bs (i + 8))

/-- One STL facet: the three vertex positions.  The 12-byte normal and the
2-byte attribute field of the record are read and discarded by the code. -/
structure Facet where
  v1 : ℚ × ℚ × ℚ
  v2 : ℚ × ℚ × ℚ
  v3 : ℚ × ℚ × ℚ
deriving DecidableEq, Repr

/-- The `k`-th facet record starts at byte 84 + 50k; its three vertices
follow the 12-byte normal, at relative offsets 12, 24 and 36. -/
def facetAt (bs : List ℕ) (k : ℕ) : Facet :=
  { v1 := vec3At bs (84 + 50 * k + 12)
    v2 := vec3At bs (84 + 50 * k + 24)
    v3 := vec3At bs (84 + 50 * k + 36) }

/-- The little-endian uint32 facet count read at byte offset 80
(`struct.unpack("<I", ...)` after skipping the 80-byte header). -/
def facetCount (bs : List ℕ) : ℕ :=
  byteAt bs 80 + 256 * byteAt bs 81 + 65536 * byteAt bs 82 + 16777216 * byteAt bs 83

/-- StlReader: skip the 80-byte header, read the facet count `F`, require
the total size to be exactly `80 + 4 + 50 F` (lines 68-72 of the code,
raising `ValueError` otherwise), and produce the `F` facets in order. -/
def parseStl (bs : List ℕ) : Except String (List Facet) :=
  if bs.length = 84 + 50 * facetCount bs then
    Except.ok ((List.range (facetCount bs)).map (facetAt bs))
  else
    Except.error "STL is not binary or is ill-formatted"

/-- Python `int()` conversion of a rational: truncation toward zero. -/
def truncQ (q : ℚ) : ℤ := if 0 ≤ q then ⌊q⌋ else ⌈q⌉

/-- The coordinate quantization of the code, `int(x * 100000) / 100000`
(lines 87-89): multiply by 100000, truncate toward zero, divide back. -/
def quantize (c : ℚ) : ℚ := (truncQ (c * 100000) : ℚ) / 100000

/-- Quantization applied to the three coordinates of a vertex. -/
def quantizeVec (v : ℚ × ℚ × ℚ) : ℚ × ℚ × ℚ :=
  (quantize v.1, quantize v.2.1, quantize v.2.2)

/-- The vertex visit order of the conversion loop: for each facet in input
order, its three vertices in order. -/
def vertexStream (fs : List Facet) : List (ℚ × ℚ × ℚ) :=
  fs.flatMap (fun f => [f.v1, f.v2, f.v3])

/-- Position of the first occurrence of `k` in a list, if present.  This
models lookup in the insertion-ordered Python dict `vertices`, the dict
being represented by its key list in insertion order. -/
def idxOfA (k : ℚ × ℚ × ℚ) : List (ℚ × ℚ × ℚ) → Option ℕ
  | [] => none
  | x :: xs => if x = k then some 0 else (idxOfA k xs).map (· + 1)

/-- One step of the welding loop (lines 93-98): look the quantized key up
in the vertex table; if present append its index to `indices`, otherwise
insert it with the next sequential index and append that index. -/
def weldStep (st : List (ℚ × ℚ × ℚ) × List ℕ) (k : ℚ × ℚ × ℚ) :
    List (ℚ × ℚ × ℚ) × List ℕ :=
  match idxOfA k st.1 with
  | some i => (st.1, st.2 ++ [i])
  | none => (st.1 ++ [k], st.2 ++ [st.1.length])

/-- VertexWelder: fold the welding step over a key stream, starting from
the empty table and empty index buffer. -/
def weld (ks : List (ℚ × ℚ × ℚ)) : List (ℚ × ℚ × ℚ) × List ℕ :=
  ks.foldl weldStep ([], [])

/-- Unique-vertex list (the keys of the dict `vertices` in first-seen
order) produced by converting the given facets. -/
def verticesOf (fs : List Facet) : List (ℚ × ℚ × ℚ) :=
  (weld ((vertexStream fs).map quantizeVec)).1

/-- Index buffer produced by converting the given facets. -/
def indicesOf (fs : List Facet) : List ℕ :=
  (weld ((vertexStream fs).map quantizeVec)).2

/-- The running-minimum fold of the code, `if x < m: m = x`, started from
the sentinel initial value. -/
def foldMin (init : ℚ) (l : List ℚ) : ℚ :=
  l.foldl (fun m x => if x < m then x else m) init

/-- The running-maximum fold of the code, `if x > m: m = x`. -/
def foldMax (init : ℚ) (l : List ℚ) : ℚ :=
  l.foldl (fun m x => if m < x then x else m) init

/-- The x coordinates of the quantized vertex stream (every visit,
duplicates included), in visit order. -/
def xsOf (fs : List Facet) : List ℚ :=
  ((vertexStream fs).map quantizeVec).map (fun v => v.1)

/-- The y coordinates of the quantized vertex stream. -/
def ysOf (fs : List Facet) : List ℚ :=
  ((vertexStream fs).map quantizeVec).map (fun v => v.2.1)

/-- The z coordinates of the quantized vertex stream. -/
def zsOf (fs : List Facet) : List ℚ :=
  ((vertexStream fs).map quantizeVec).map (fun v => v.2.2)

/-- Numeric fields interpolated into the `gltf2` JSON template of the code
(lines 120-201).  `idxMax` is the Python expression
`number_vertices - 1`, an `int` that is -1 when there are no vertices;
`posMin`/`posMax` are the six bounding-box numbers, always emitted. -/
structure GltfDoc where
  bufferByteLength : ℕ
  view0ByteOffset : ℕ
  view0ByteLength : ℕ
  view1ByteOffset : ℕ
  view1ByteLength : ℕ
  idxCount : ℕ
  idxMax : ℤ
  posCount : ℕ
  posMin : ℚ × ℚ × ℚ
  posMax : ℚ × ℚ × ℚ
  hasUri : Bool
deriving DecidableEq, Repr

/-- GltfAssembler: the document fields exactly as computed by lines
107-112 and interpolated by lines 190-201 of the code.  The sentinels
9999999 / -9999999 are the initial bbox values of lines 74-76. -/
def gltfDoc (fs : List Facet) (isBin : Bool) : GltfDoc :=
  { bufferByteLength := pad4 (4 * (indicesOf fs).length) + 12 * (verticesOf fs).length
    view0ByteOffset := 0
    view0ByteLength := pad4 (4 * (indicesOf fs).length)
    view1ByteOffset := pad4 (4 * (indicesOf fs).length)
    view1ByteLength := 12 * (verticesOf fs).length
    idxCount := (indicesOf fs).length
    idxMax := ((verticesOf fs).length : ℤ) - 1
    posCount := (verticesOf fs).length
    posMin := (foldMin 9999999 (xsOf fs), foldMin 9999999 (ysOf fs), foldMin 9999999 (zsOf fs))
    posMax := (foldMax (-9999999) (xsOf fs), foldMax (-9999999) (ysOf fs), foldMax (-9999999) (zsOf fs))
    hasUri := !isBin }

/-- BinaryPacker (lines 234-247): the index buffer as little-endian
uint32 values, padding with the space byte 0x20 up to the padded index
length, then the vertex coordinates in first-seen order, each coordinate
serialized by `enc` (4 bytes for the IEEE-754 float in the code). -/
def packedPayload (enc : ℚ → List ℕ) (indices : List ℕ)
    (verts : List (ℚ × ℚ × ℚ)) : List ℕ :=
  indices.flatMap u32le
    ++ List.replicate (pad4 (4 * indices.length) - 4 * indices.length) 32
    ++ verts.flatMap (fun v => enc v.1 ++ enc v.2.1 ++ enc v.2.2)

/-- GlbContainerWriter (lines 204-247): 12-byte header (magic, version 2,
total file length), JSON chunk (padded length, type, minified JSON bytes,
space padding to the padded length), BIN chunk (length, type, packed
payload).  `scene` is the minified JSON document as bytes. -/
def glbBytes (enc : ℚ → List ℕ) (scene : List ℕ) (indices : List ℕ)
    (verts : List (ℚ × ℚ × ℚ)) : List ℕ :=
  let paddedSceneLen := pad4 scene.length
  let outBinByteLength := pad4 (4 * indices.length) + 12 * verts.length
  let fileLen := paddedSceneLen + 12 + 8 + outBinByteLength + 8
  u32le 0x46546C67 ++ u32le 2 ++ u32le fileLen
    ++ u32le paddedSceneLen ++ u32le 0x4E4F534A
    ++ scene ++ List.replicate (paddedSceneLen - scene.length) 32
    ++ u32le outBinByteLength ++ u32le 0x004E4942
    ++ packedPayload enc indices verts

/-- The full converter `stl_to_gltf_custom`: parse, weld, assemble.  The
result pairs the glTF document fields with the bytes written to the output
binary file (`out.bin` in split mode, the whole GLB stream in binary
mode).  `render` abstracts the pure JSON formatting of the document into
minified text, which the model does not spell out character by character. -/
def stl_to_gltf_custom (enc : ℚ → List ℕ) (render : GltfDoc → List ℕ)
    (bs : List ℕ) (isBin : Bool) : Except String (GltfDoc × List ℕ) :=
  (parseStl bs).map (fun fs =>
    if isBin then
      (gltfDoc fs true,
        glbBytes enc (render (gltfDoc fs true)) (indicesOf fs) (verticesOf fs))
    else
      (gltfDoc fs false, packedPayload enc (indicesOf fs) (verticesOf fs)))

/-- Round-to-nearest at 5 decimal digits, the policy named by the spec
(modelled from the spec's words, for comparison with `quantize`):
`c` is sent to the nearest multiple of 10^-5. -/
def roundNearest5 (c : ℚ) : ℚ := (round (c * 100000) : ℚ) / 100000

/-- Minimum of a nonempty list (first element for the fold start), the
reference notion of the true minimum over a coordinate list. -/
def trueMin : List ℚ → ℚ
  | [] => 0
  | x :: xs => xs.foldl min x

/-- Maximum of a nonempty list, the reference notion of the true maximum
over a coordinate list. -/
def trueMax : List ℚ → ℚ
  | [] => 0
  | x :: xs => xs.foldl max x

/-! ### Arithmetic helper lemmas -/

lemma u32le_length (n : ℕ) : (u32le n).length = 4 := rfl

lemma pad4_mod (n : ℕ) : pad4 n % 4 = 0 := by
  simp [pad4, Nat.mul_mod_left]

lemma le_pad4 (n : ℕ) : n ≤ pad4 n := by
  have h1 := Nat.div_add_mod (n + 3) 4
  have h2 : (n + 3) % 4 < 4 := Nat.mod_lt _ (by norm_num)
  simp only [pad4]
  omega

lemma pad4_mul4 (n : ℕ) : pad4 (4 * n) = 4 * n := by
  have h : (4 * n + 3) / 4 = n := by omega
  simp only [pad4, h]
  exact Nat.mul_comm n 4

lemma length_flatMap_const {α : Type} (f : α → List ℕ) (c : ℕ)
    (h : ∀ a, (f a).length = c) : ∀ l : List α, (l.flatMap f).length = c * l.length := by
  intro l
  induction l with
  | nil => simp
  | cons a t ih => simp [ih, h a, Nat.mul_add, Nat.mul_one, Nat.add_comm]

/-- Total byte count actually appended by the BinaryPacker, for any
4-byte-per-float coordinate encoder. -/
lemma packedPayload_length (enc : ℚ → List ℕ) (henc : ∀ q, (enc q).length = 4)
    (indices : List ℕ) (verts : List (ℚ × ℚ × ℚ)) :
    (packedPayload enc indices verts).length
      = pad4 (4 * indices.length) + 12 * verts.length := by
  have hi : (indices.flatMap u32le).length = 4 * indices.length :=
    length_flatMap_const u32le 4 u32le_length indices
  have hv : (verts.flatMap (fun v => enc v.1 ++ enc v.2.1 ++ enc v.2.2)).length
      = 12 * verts.length := by
    refine length_flatMap_const _ 12 ?_ verts
    intro a
    simp [henc]
  have hle := le_pad4 (4 * indices.length)
  simp only [packedPayload, List.length_append, hi, hv, List.length_replicate]
  omega

/-! ### Lemmas about the first-occurrence index -/

lemma idxOfA_nil (k : ℚ × ℚ × ℚ) : idxOfA k [] = none := rfl

lemma idxOfA_lt_length (k : ℚ × ℚ × ℚ) :
    ∀ (l : List (ℚ × ℚ × ℚ)) (i : ℕ), idxOfA k l = some i → i < l.length := by
  intro l
  induction l with
  | nil => intro i h; simp [idxOfA] at h
  | cons x xs ih =>
    intro i h
    rw [idxOfA] at h
    by_cases hx : x = k
    · rw [if_pos hx] at h
      cases h
      simp
    · rw [if_neg hx] at h
      cases hj : idxOfA k xs with
      | none => rw [hj] at h; simp at h
      | some j =>
        rw [hj] at h
        simp at h
        have := ih j hj
        simp [← h]
        omega

lemma idxOfA_getD (k d : ℚ × ℚ × ℚ) :
    ∀ (l : List (ℚ × ℚ × ℚ)) (i : ℕ), idxOfA k l = some i → l.getD i d = k := by
  intro l
  induction l with
  | nil => intro i h; simp [idxOfA] at h
  | cons x xs ih =>
    intro i h
    rw [idxOfA] at h
    by_cases hx : x = k
    · rw [if_pos hx] at h
      cases h
      simpa using hx
    · rw [if_neg hx] at h
      cases hj : idxOfA k xs with
      | none => rw [hj] at h; simp at h
      | some j =>
        rw [hj] at h
        simp at h
        have hg := ih j hj
        rw [← h]
        rw [List.getD_eq_getElem?_getD] at hg ⊢
        simpa using hg

lemma idxOfA_append_some (k : ℚ × ℚ × ℚ) (t : List (ℚ × ℚ × ℚ)) :
    ∀ (l : List (ℚ × ℚ × ℚ)) (i : ℕ), idxOfA k l = some i → idxOfA k (l ++ t) = some i := by
  intro l
  induction l with
  | nil => intro i h; simp [idxOfA] at h
  | cons x xs ih =>
    intro i h
    rw [idxOfA] at h
    rw [List.cons_append, idxOfA]
    by_cases hx : x = k
    · rw [if_pos hx] at h ⊢
      exact h
    · rw [if_neg hx] at h ⊢
      cases hj : idxOfA k xs with
      | none => rw [hj] at h; simp at h
      | some j =>
        rw [hj] at h
        rw [ih j hj]
        exact h

lemma idxOfA_none_append (k : ℚ × ℚ × ℚ) (t : List (ℚ × ℚ × ℚ)) :
    ∀ l : List (ℚ × ℚ × ℚ), idxOfA k l = none →
      idxOfA k (l ++ k :: t) = some l.length := by
  intro l
  induction l with
  | nil => intro _; simp [idxOfA]
  | cons x xs ih =>
    intro h
    rw [idxOfA] at h
    by_cases hx : x = k
    · rw [if_pos hx] at h
      simp at h
    · rw [if_neg hx] at h
      rw [List.cons_append, idxOfA, if_neg hx]
      cases hj : idxOfA k xs with
      | none =>
        rw [ih hj]
        simp
      | some j => rw [hj] at h; simp at h

lemma mem_of_idxOfA (k : ℚ × ℚ × ℚ) (l : List (ℚ × ℚ × ℚ)) (i : ℕ)
    (h : idxOfA k l = some i) : k ∈ l := by
  have h1 := idxOfA_getD k k l i h
  have h2 := idxOfA_lt_length k l i h
  rw [← h1, List.getD_eq_getElem l k h2]
  exact List.getElem_mem h2

/-! ### Invariants of the welding fold

The Python dict `vertices` only ever grows, the counter
`vertices_length_counter` equals its size, and one index is appended to
`indices` per vertex visit.  The lemmas below establish this for the fold
`List.foldl weldStep` from an arbitrary starting state. -/

lemma weld_verts_extend (ks : List (ℚ × ℚ × ℚ)) :
    ∀ st, ∃ t, (List.foldl weldStep st ks).1 = st.1 ++ t := by
  induction ks with
  | nil => intro st; exact ⟨[], by simp⟩
  | cons k ks ih =>
    intro st
    rw [List.foldl_cons]
    obtain ⟨t, ht⟩ := ih (weldStep st k)
    cases h : idxOfA k st.1 with
    | some i =>
      refine ⟨t, ?_⟩
      rw [ht]
      simp [weldStep, h]
    | none =>
      refine ⟨k :: t, ?_⟩
      rw [ht]
      simp [weldStep, h]

lemma weld_indices_extend (ks : List (ℚ × ℚ × ℚ)) :
    ∀ st, ∃ t, (List.foldl weldStep st ks).2 = st.2 ++ t := by
  induction ks with
  | nil => intro st; exact ⟨[], by simp⟩
  | cons k ks ih =>
    intro st
    rw [List.foldl_cons]
    obtain ⟨t, ht⟩ := ih (weldStep st k)
    cases h : idxOfA k st.1 with
    | some i =>
      refine ⟨i :: t, ?_⟩
      rw [ht]
      simp [weldStep, h]
    | none =>
      refine ⟨st.1.length :: t, ?_⟩
      rw [ht]
      simp [weldStep, h]

lemma weld_indices_length (ks : List (ℚ × ℚ × ℚ)) :
    ∀ st, (List.foldl weldStep st ks).2.length = st.2.length + ks.length := by
  induction ks with
  | nil => intro st; simp
  | cons k ks ih =>
    intro st
    rw [List.foldl_cons, ih]
    cases h : idxOfA k st.1 with
    | some i => simp [weldStep, h]; omega
    | none => simp [weldStep, h]; omega

/-- Central welding lemma: the `p`-th entry appended to the index buffer is
the position of the first occurrence of the `p`-th stream key in the final
vertex table. -/
lemma weld_index_eq (ks : List (ℚ × ℚ × ℚ)) :
    ∀ (st : List (ℚ × ℚ × ℚ) × List ℕ) (p : ℕ), p < ks.length →
      ∃ i, idxOfA (ks.getD p (0, 0, 0)) (List.foldl weldStep st ks).1 = some i ∧
        (List.foldl weldStep st ks).2.getD (st.2.length + p) 0 = i := by
  induction ks with
  | nil => intro st p hp; simp at hp
  | cons k ks ih =>
    intro st p hp
    rw [List.foldl_cons]
    cases p with
    | zero =>
      obtain ⟨t, ht⟩ := weld_verts_extend ks (weldStep st k)
      obtain ⟨t2, ht2⟩ := weld_indices_extend ks (weldStep st k)
      cases h : idxOfA k st.1 with
      | some i =>
        refine ⟨i, ?_, ?_⟩
        · rw [ht]
          have h1 : (weldStep st k).1 = st.1 := by simp [weldStep, h]
          rw [h1]
          exact idxOfA_append_some k t st.1 i h
        · rw [ht2]
          have h2 : (weldStep st k).2 = st.2 ++ [i] := by simp [weldStep, h]
          rw [h2, List.append_assoc]
          rw [List.getD_append_right st.2 ([i] ++ t2) 0 _ (by simp)]
          simp
      | none =>
        refine ⟨st.1.length, ?_, ?_⟩
        · rw [ht]
          have h1 : (weldStep st k).1 = st.1 ++ [k] := by simp [weldStep, h]
          rw [h1, List.append_assoc]
          exact idxOfA_none_append k t st.1 h
        · rw [ht2]
          have h2 : (weldStep st k).2 = st.2 ++ [st.1.length] := by
            simp [weldStep, h]
          rw [h2, List.append_assoc]
          rw [List.getD_append_right st.2 _ 0 _ (by simp)]
          simp
    | succ p =>
      have hp' : p < ks.length := by simpa using hp
      obtain ⟨i, hi, hv⟩ := ih (weldStep st k) p hp'
      refine ⟨i, ?_, ?_⟩
      · simpa using hi
      · have hl : (weldStep st k).2.length = st.2.length + 1 := by
          cases h : idxOfA k st.1 with
          | some j => simp [weldStep, h]
          | none => simp [weldStep, h]
        rw [hl] at hv
        have harr : st.2.length + 1 + p = st.2.length + (p + 1) := by omega
        rw [harr] at hv
        exact hv

/-- Every index in the buffer is a valid position in the final table. -/
lemma weld_index_bound (ks : List (ℚ × ℚ × ℚ)) :
    ∀ st, (∀ i ∈ st.2, i < st.1.length) →
      ∀ i ∈ (List.foldl weldStep st ks).2, i < (List.foldl weldStep st ks).1.length := by
  induction ks with
  | nil => intro st h; simpa using h
  | cons k ks ih =>
    intro st h
    rw [List.foldl_cons]
    refine ih (weldStep st k) ?_
    intro i hi
    cases hk : idxOfA k st.1 with
    | some j =>
      simp [weldStep, hk] at hi ⊢
      rcases hi with hi | hi
      · exact h i hi
      · rw [hi]
        exact idxOfA_lt_length k st.1 j hk
    | none =>
      simp [weldStep, hk] at hi ⊢
      rcases hi with hi | hi
      · have := h i hi
        omega
      · omega

/-- Every table position below the final size was appended to the index
buffer at the moment the key was inserted. -/
lemma weld_index_surj (ks : List (ℚ × ℚ × ℚ)) :
    ∀ st j, st.1.length ≤ j → j < (List.foldl weldStep st ks).1.length →
      j ∈ (List.foldl weldStep st ks).2 := by
  induction ks with
  | nil =>
    intro st j h1 h2
    simp at h2
    omega
  | cons k ks ih =>
    intro st j h1 h2
    rw [List.foldl_cons] at h2 ⊢
    cases hk : idxOfA k st.1 with
    | some i =>
      refine ih (weldStep st k) j ?_ h2
      simp [weldStep, hk]
      exact h1
    | none =>
      by_cases hj : j = st.1.length
      · obtain ⟨t2, ht2⟩ := weld_indices_extend ks (weldStep st k)
        rw [ht2]
        have h3 : (weldStep st k).2 = st.2 ++ [st.1.length] := by
          simp [weldStep, hk]
        rw [h3, hj]
        simp
      · refine ih (weldStep st k) j ?_ h2
        have h4 : (weldStep st k).1 = st.1 ++ [k] := by simp [weldStep, hk]
        rw [h4]
        simp
        omega

/-- Every key of the final table is one of the stream keys (or came from
the starting state). -/
lemma weld_verts_mem (ks : List (ℚ × ℚ × ℚ)) :
    ∀ st v, v ∈ (List.foldl weldStep st ks).1 → v ∈ st.1 ∨ v ∈ ks := by
  induction ks with
  | nil => intro st v h; simp at h; exact Or.inl h
  | cons k ks ih =>
    intro st v h
    rw [List.foldl_cons] at h
    rcases ih (weldStep st k) v h with h1 | h1
    · cases hk : idxOfA k st.1 with
      | some i =>
        rw [show (weldStep st k).1 = st.1 from by simp [weldStep, hk]] at h1
        exact Or.inl h1
      | none =>
        rw [show (weldStep st k).1 = st.1 ++ [k] from by simp [weldStep, hk]] at h1
        rcases List.mem_append.mp h1 with h2 | h2
        · exact Or.inl h2
        · simp at h2
          exact Or.inr (by simp [h2])
    · exact Or.inr (by simp [h1])

/-! ### Prefix stability of the welding fold -/

lemma weld_take_verts (ks : List (ℚ × ℚ × ℚ)) (n : ℕ) :
    (weld ks).1.take ((weld (ks.take n)).1.length) = (weld (ks.take n)).1 := by
  have hsplit : ks.take n ++ ks.drop n = ks := List.take_append_drop n ks
  have hfold : (weld ks) = List.foldl weldStep (weld (ks.take n)) (ks.drop n) := by
    rw [weld, ← hsplit, List.foldl_append]
    rw [hsplit]
    rfl
  obtain ⟨t, ht⟩ := weld_verts_extend (ks.drop n) (weld (ks.take n))
  rw [hfold, ht]
  exact List.take_left _ _

lemma weld_take_indices (ks : List (ℚ × ℚ × ℚ)) (n : ℕ) :
    (weld ks).2.take ((ks.take n).length) = (weld (ks.take n)).2 := by
  have hsplit : ks.take n ++ ks.drop n = ks := List.take_append_drop n ks
  have hfold : (weld ks) = List.foldl weldStep (weld (ks.take n)) (ks.drop n) := by
    rw [weld, ← hsplit, List.foldl_append]
    rw [hsplit]
    rfl
  obtain ⟨t, ht⟩ := weld_indices_extend (ks.drop n) (weld (ks.take n))
  have hlen : (weld (ks.take n)).2.length = (ks.take n).length := by
    have := weld_indices_length (ks.take n) ([], [])
    simpa [weld] using this
  rw [hfold, ht, ← hlen]
  exact List.take_left _ _

/-! ### Bounding-box fold lemmas -/

lemma foldMin_eq_foldl_min (a : ℚ) (l : List ℚ) : foldMin a l = l.foldl min a := by
  have h : (fun (m x : ℚ) => if x < m then x else m) = fun (m x : ℚ) => min m x := by
    funext m x
    by_cases hx : x < m
    · rw [if_pos hx, min_eq_right hx.le]
    · rw [if_neg hx, min_eq_left (le_of_not_lt hx)]
  rw [foldMin, h]

lemma foldMax_eq_foldl_max (a : ℚ) (l : List ℚ) : foldMax a l = l.foldl max a := by
  have h : (fun (m x : ℚ) => if m < x then x else m) = fun (m x : ℚ) => max m x := by
    funext m x
    by_cases hx : m < x
    · rw [if_pos hx, max_eq_right hx.le]
    · rw [if_neg hx, max_eq_left (le_of_not_lt hx)]
  rw [foldMax, h]

lemma foldl_min_shift (xs : List ℚ) :
    ∀ a x : ℚ, xs.foldl min (min a x) = min a (xs.foldl min x) := by
  induction xs with
  | nil => intro a x; simp
  | cons y ys ih =>
    intro a x
    rw [List.foldl_cons, List.foldl_cons, min_assoc, ih]

lemma foldl_max_shift (xs : List ℚ) :
    ∀ a x : ℚ, xs.foldl max (max a x) = max a (xs.foldl max x) := by
  induction xs with
  | nil => intro a x; simp
  | cons y ys ih =>
    intro a x
    rw [List.foldl_cons, List.foldl_cons, max_assoc, ih]

/-- The running minimum started from a sentinel computes the minimum of
the sentinel and the list minimum. -/
lemma foldMin_cons (a x : ℚ) (xs : List ℚ) :
    foldMin a (x :: xs) = min a (trueMin (x :: xs)) := by
  rw [foldMin_eq_foldl_min, trueMin, List.foldl_cons, foldl_min_shift]

lemma foldMax_cons (a x : ℚ) (xs : List ℚ) :
    foldMax a (x :: xs) = max a (trueMax (x :: xs)) := by
  rw [foldMax_eq_foldl_max, trueMax, List.foldl_cons, foldl_max_shift]

lemma foldl_min_le_init (xs : List ℚ) : ∀ x : ℚ, xs.foldl min x ≤ x := by
  induction xs with
  | nil => intro x; simp
  | cons y ys ih =>
    intro x
    rw [List.foldl_cons]
    exact le_trans (ih (min x y)) (min_le_left x y)

lemma foldl_max_init_le (xs : List ℚ) : ∀ x : ℚ, x ≤ xs.foldl max x := by
  induction xs with
  | nil => intro x; simp
  | cons y ys ih =>
    intro x
    rw [List.foldl_cons]
    exact le_trans (le_max_left x y) (ih (max x y))

/-! ### Characterization of the truncating quantization -/

lemma truncQ_abs_le (y : ℚ) : |(truncQ y : ℚ)| ≤ |y| := by
  rw [truncQ]
  by_cases hy : 0 ≤ y
  · rw [if_pos hy]
    have h1 : (0 : ℤ) ≤ ⌊y⌋ := Int.floor_nonneg.mpr hy
    have h2 : ((⌊y⌋ : ℤ) : ℚ) ≤ y := Int.floor_le y
    rw [abs_of_nonneg hy, abs_of_nonneg (by exact_mod_cast h1)]
    exact h2
  · rw [if_neg hy]
    push_neg at hy
    have h1 : (⌈y⌉ : ℤ) ≤ 0 := Int.ceil_le.mpr (by exact_mod_cast hy.le)
    have h2 : y ≤ ((⌈y⌉ : ℤ) : ℚ) := Int.le_ceil y
    rw [abs_of_nonpos hy.le, abs_of_nonpos (by exact_mod_cast h1)]
    exact neg_le_neg h2

lemma truncQ_abs_gt (y : ℚ) : |y| < |(truncQ y : ℚ)| + 1 := by
  rw [truncQ]
  by_cases hy : 0 ≤ y
  · rw [if_pos hy]
    have h1 : (0 : ℤ) ≤ ⌊y⌋ := Int.floor_nonneg.mpr hy
    have h2 : y < ((⌊y⌋ : ℤ) : ℚ) + 1 := Int.lt_floor_add_one y
    rw [abs_of_nonneg hy, abs_of_nonneg (show (0:ℚ) ≤ ((⌊y⌋ : ℤ) : ℚ) by exact_mod_cast h1)]
    exact h2
  · rw [if_neg hy]
    push_neg at hy
    have h1 : (⌈y⌉ : ℤ) ≤ 0 := Int.ceil_le.mpr (by exact_mod_cast hy.le)
    have h2 : ((⌈y⌉ : ℤ) : ℚ) < y + 1 := Int.ceil_lt_add_one y
    rw [abs_of_nonpos hy.le, abs_of_nonpos (show ((⌈y⌉ : ℤ) : ℚ) ≤ 0 by exact_mod_cast h1)]
    linarith

lemma truncQ_sign (y : ℚ) : 0 ≤ (truncQ y : ℚ) * y := by
  rw [truncQ]
  by_cases hy : 0 ≤ y
  · rw [if_pos hy]
    have h1 : (0 : ℤ) ≤ ⌊y⌋ := Int.floor_nonneg.mpr hy
    exact mul_nonneg (by exact_mod_cast h1) hy
  · rw [if_neg hy]
    push_neg at hy
    have h1 : (⌈y⌉ : ℤ) ≤ 0 := Int.ceil_le.mpr (by exact_mod_cast hy.le)
    have h2 : ((⌈y⌉ : ℤ) : ℚ) ≤ 0 := by exact_mod_cast h1
    nlinarith

/-! ### Concrete inputs used to instantiate the theorems

`scenarioA` is the single-triangle binary STL of the spec's Scenario A:
80 zero header bytes, facet count 1, normal (0,0,1), vertices
(0,0,0), (1,0,0), (0,1,0), attribute field 0.  The float 1.0 is the
little-endian byte group [0, 0, 128, 63] (0x3F800000). -/

def scenarioA : List ℕ :=
  List.replicate 80 0 ++ [1, 0, 0, 0]
    ++ ([0, 0, 0, 0] ++ [0, 0, 0, 0] ++ [0, 0, 128, 63])
    ++ List.replicate 12 0
    ++ ([0, 0, 128, 63] ++ List.replicate 8 0)
    ++ ([0, 0, 0, 0] ++ [0, 0, 128, 63] ++ [0, 0, 0, 0])
    ++ [0, 0]

/-- The facet encoded by `scenarioA`. -/
def facetA : Facet := ⟨(0, 0, 0), (1, 0, 0), (0, 1, 0)⟩

/-- A binary STL with facet count 0 and nothing after the count. -/
def emptyStl : List ℕ := List.replicate 84 0

/-- A facet whose coordinates exceed the bounding-box sentinel 9999999. -/
def facetBig : Facet :=
  ⟨(10000000, 0, 0), (10000000, 0, 0), (10000000, 0, 0)⟩

/-- A trivial 4-byte coordinate encoder, used to instantiate the abstract
float serializer in witnesses. -/
def encZero : ℚ → List ℕ := fun _ => [0, 0, 0, 0]

/-- A trivial JSON renderer, used to instantiate the abstract minified
document renderer in witnesses. -/
def renderNil : GltfDoc → List ℕ := fun _ => []

lemma quantize_zero : quantize 0 = 0 := by
  norm_num [quantize, truncQ]

lemma quantize_one : quantize 1 = 1 := by
  norm_num [quantize, truncQ]

lemma quantize_ten7 : quantize 10000000 = 10000000 := by
  norm_num [quantize, truncQ]

set_option maxRecDepth 4000 in
lemma facetAt_A : facetAt scenarioA 0 = facetA := by
  simp only [facetAt, vec3At, f32At, facetA,
    show byteAt scenarioA 96 = 0 from by decide, show byteAt scenarioA 97 = 0 from by decide,
    show byteAt scenarioA 98 = 0 from by decide, show byteAt scenarioA 99 = 0 from by decide,
    show byteAt scenarioA 100 = 0 from by decide, show byteAt scenarioA 101 = 0 from by decide,
    show byteAt scenarioA 102 = 0 from by decide, show byteAt scenarioA 103 = 0 from by decide,
    show byteAt scenarioA 104 = 0 from by decide, show byteAt scenarioA 105 = 0 from by decide,
    show byteAt scenarioA 106 = 0 from by decide, show byteAt scenarioA 107 = 0 from by decide,
    show byteAt scenarioA 108 = 0 from by decide, show byteAt scenarioA 109 = 0 from by decide,
    show byteAt scenarioA 110 = 128 from by decide, show byteAt scenarioA 111 = 63 from by decide,
    show byteAt scenarioA 112 = 0 from by decide, show byteAt scenarioA 113 = 0 from by decide,
    show byteAt scenarioA 114 = 0 from by decide, show byteAt scenarioA 115 = 0 from by decide,
    show byteAt scenarioA 116 = 0 from by decide, show byteAt scenarioA 117 = 0 from by decide,
    show byteAt scenarioA 118 = 0 from by decide, show byteAt scenarioA 119 = 0 from by decide,
    show byteAt scenarioA 120 = 0 from by decide, show byteAt scenarioA 121 = 0 from by decide,
    show byteAt scenarioA 122 = 0 from by decide, show byteAt scenarioA 123 = 0 from by decide,
    show byteAt scenarioA 124 = 0 from by decide, show byteAt scenarioA 125 = 0 from by decide,
    show byteAt scenarioA 126 = 128 from by decide, show byteAt scenarioA 127 = 63 from by decide,
    show byteAt scenarioA 128 = 0 from by decide, show byteAt scenarioA 129 = 0 from by decide,
    show byteAt scenarioA 130 = 0 from by decide, show byteAt scenarioA 131 = 0 from by decide]
  norm_num [decodeF32]

set_option maxRecDepth 4000 in
lemma parseStl_A : parseStl scenarioA = Except.ok [facetA] := by
  have h1 : facetCount scenarioA = 1 := by decide
  have h2 : scenarioA.length = 134 := by decide
  rw [parseStl, h1, h2]
  simp [List.range_succ, facetAt_A]

lemma parseStl_empty : parseStl emptyStl = Except.ok [] := by
  have h1 : facetCount emptyStl = 0 := by decide
  have h2 : emptyStl.length = 84 := by decide
  rw [parseStl, h1, h2]
  simp

lemma stream_A : (vertexStream [facetA]).map quantizeVec
    = [(0, 0, 0), (1, 0, 0), (0, 1, 0)] := by
  simp [vertexStream, facetA, quantizeVec, quantize_zero, quantize_one]

lemma keyNe01 : ((0 : ℚ), (0 : ℚ), (0 : ℚ)) ≠ ((1 : ℚ), (0 : ℚ), (0 : ℚ)) := by
  norm_num [Prod.ext_iff]

lemma keyNe02 : ((0 : ℚ), (0 : ℚ), (0 : ℚ)) ≠ ((0 : ℚ), (1 : ℚ), (0 : ℚ)) := by
  norm_num [Prod.ext_iff]

lemma keyNe12 : ((1 : ℚ), (0 : ℚ), (0 : ℚ)) ≠ ((0 : ℚ), (1 : ℚ), (0 : ℚ)) := by
  norm_num [Prod.ext_iff]

lemma weld_A : weld ((vertexStream [facetA]).map quantizeVec)
    = ([(0, 0, 0), (1, 0, 0), (0, 1, 0)], [0, 1, 2]) := by
  rw [stream_A]
  have i1 : idxOfA ((0 : ℚ), (0 : ℚ), (0 : ℚ)) [] = none := rfl
  have s1 : weldStep ([], []) ((0 : ℚ), (0 : ℚ), (0 : ℚ)) = ([(0, 0, 0)], [0]) := by
    rw [weldStep, i1]
    rfl
  have i2 : idxOfA ((1 : ℚ), (0 : ℚ), (0 : ℚ)) [(0, 0, 0)] = none := by
    rw [idxOfA, if_neg keyNe01]
    rfl
  have s2 : weldStep ([(0, 0, 0)], [0]) ((1 : ℚ), (0 : ℚ), (0 : ℚ))
      = ([(0, 0, 0), (1, 0, 0)], [0, 1]) := by
    rw [weldStep, i2]
    rfl
  have i3 : idxOfA ((0 : ℚ), (1 : ℚ), (0 : ℚ)) [(0, 0, 0), (1, 0, 0)] = none := by
    rw [idxOfA, if_neg keyNe02, idxOfA, if_neg keyNe12]
    rfl
  have s3 : weldStep ([(0, 0, 0), (1, 0, 0)], [0, 1]) ((0 : ℚ), (1 : ℚ), (0 : ℚ))
      = ([(0, 0, 0), (1, 0, 0), (0, 1, 0)], [0, 1, 2]) := by
    rw [weldStep, i3]
    rfl
  simp only [weld, List.foldl_cons, List.foldl_nil, s1, s2, s3]

lemma verticesOf_A : verticesOf [facetA] = [(0, 0, 0), (1, 0, 0), (0, 1, 0)] := by
  rw [verticesOf, weld_A]

lemma indicesOf_A : indicesOf [facetA] = [0, 1, 2] := by
  rw [indicesOf, weld_A]

lemma xsOf_A : xsOf [facetA] = [0, 1, 0] := by
  simp only [xsOf, stream_A, List.map_cons, List.map_nil]

lemma ysOf_A : ysOf [facetA] = [0, 0, 1] := by
  simp only [ysOf, stream_A, List.map_cons, List.map_nil]

lemma zsOf_A : zsOf [facetA] = [0, 0, 0] := by
  simp only [zsOf, stream_A, List.map_cons, List.map_nil]

lemma stream_big : (vertexStream [facetBig]).map quantizeVec
    = [(10000000, 0, 0), (10000000, 0, 0), (10000000, 0, 0)] := by
  simp [vertexStream, facetBig, quantizeVec, quantize_zero, quantize_ten7]

lemma xsOf_big : xsOf [facetBig] = [10000000, 10000000, 10000000] := by
  simp only [xsOf, stream_big, List.map_cons, List.map_nil]

/-! ### Claim theorems -/

/-- C3: the converter fails (with the `ValueError` of line 72, the spec's
FormatError) and produces no output exactly when the input's byte length
differs from `80 + 4 + 50 F`, `F` being the little-endian uint32 read at
offset 80; an input satisfying the size equation passes the size check.
The hypothesis `84 ≤ bs.length` scopes the claim to inputs on which the
facet count at offset 80 exists. -/
theorem C3_size_check (bs : List ℕ) (h : 84 ≤ bs.length) :
    ((∃ fs, parseStl bs = Except.ok fs) ↔ bs.length = 84 + 50 * facetCount bs)
    ∧ (bs.length ≠ 84 + 50 * facetCount bs →
        parseStl bs = Except.error "STL is not binary or is ill-formatted") := by
  constructor
  · constructor
    · rintro ⟨fs, hfs⟩
      by_contra hne
      rw [parseStl, if_neg hne] at hfs
      cases hfs
    · intro he
      exact ⟨_, by rw [parseStl, if_pos he]⟩
  · intro hne
    rw [parseStl, if_neg hne]

/-- Witness for C3 at a concrete 90-byte input (facet count 0, expected
size 84, actual size 90: rejected). -/
theorem C3_size_check_witness :
    84 ≤ (List.replicate 90 (0 : ℕ)).length
    ∧ (((∃ fs, parseStl (List.replicate 90 0) = Except.ok fs) ↔
          (List.replicate 90 (0 : ℕ)).length
            = 84 + 50 * facetCount (List.replicate 90 0))
        ∧ ((List.replicate 90 (0 : ℕ)).length
              ≠ 84 + 50 * facetCount (List.replicate 90 0) →
            parseStl (List.replicate 90 0)
              = Except.error "STL is not binary or is ill-formatted")) :=
  ⟨by decide, C3_size_check (List.replicate 90 0) (by decide)⟩

/-- C9: conversion is deterministic — on identical input bytes and the
same output-mode flag the converter produces identical output.  The
embedding makes the welding order explicit (the insertion-ordered dict is
a list), so the whole pipeline is a pure function of its input. -/
theorem C9_deterministic (enc : ℚ → List ℕ) (render : GltfDoc → List ℕ)
    (b1 b2 : List ℕ) (m : Bool) (h : b1 = b2) :
    stl_to_gltf_custom enc render b1 m = stl_to_gltf_custom enc render b2 m := by
  rw [h]

/-- Witness for C9 on the Scenario A bytes in GLB mode. -/
theorem C9_deterministic_witness :
    stl_to_gltf_custom encZero renderNil scenarioA true
      = stl_to_gltf_custom encZero renderNil scenarioA true :=
  C9_deterministic encZero renderNil scenarioA scenarioA true rfl

/-- C2 counterexample: the claimed round-to-nearest quantization fails on
the coordinate 0.000007.  The code computes
`int(0.000007 * 100000) / 100000 = int(0.7) / 100000 = 0`, while the
nearest multiple of 10^-5 is 0.00001 (no tie: 0.7 is strictly nearer to 1
than to 0, so every round-to-nearest policy gives 0.00001). -/
theorem C2_counterexample :
    quantize (7 / 1000000) = 0
    ∧ roundNearest5 (7 / 1000000) = 1 / 100000
    ∧ quantize (7 / 1000000) ≠ roundNearest5 (7 / 1000000) := by
  have h1 : quantize (7 / 1000000) = 0 := by
    norm_num [quantize, truncQ]
  have h2 : roundNearest5 (7 / 1000000) = 1 / 100000 := by
    norm_num [roundNearest5, round_eq]
  refine ⟨h1, h2, ?_⟩
  rw [h1, h2]
  norm_num

/-- C2 amended: the quantization of the code is
multiply-by-100000-then-truncate-toward-zero, one policy applied alike to
all three coordinates: `quantize c · 100000` is an integer whose absolute
value is the integer part of `|c · 100000|`, with the sign of `c`. -/
theorem C2_truncation (c a b d : ℚ) :
    (quantize c * 100000).den = 1
    ∧ |quantize c * 100000| ≤ |c * 100000|
    ∧ |c * 100000| < |quantize c * 100000| + 1
    ∧ 0 ≤ quantize c * c
    ∧ quantizeVec (a, b, d) = (quantize a, quantize b, quantize d) := by
  have hq : quantize c * 100000 = (truncQ (c * 100000) : ℚ) := by
    rw [quantize]
    field_simp
  refine ⟨?_, ?_, ?_, ?_, rfl⟩
  · rw [hq]
    exact Rat.den_intCast _
  · rw [hq]
    exact truncQ_abs_le (c * 100000)
  · rw [hq]
    exact truncQ_abs_gt (c * 100000)
  · have hs := truncQ_sign (c * 100000)
    have h : (0 : ℚ) ≤ (truncQ (c * 100000) : ℚ) * c := by nlinarith
    rw [quantize, div_mul_eq_mul_div]
    exact div_nonneg h (by norm_num)

/-- C7 counterexample: on the facet-count-0 input the converter succeeds,
but the emitted glTF document carries concrete bounding-box values — the
untouched sentinels 9999999 / -9999999 from lines 74-76 — instead of an
omitted or undefined bounding box. -/
theorem C7_counterexample :
    parseStl emptyStl = Except.ok []
    ∧ (gltfDoc [] false).posMin = (9999999, 9999999, 9999999)
    ∧ (gltfDoc [] false).posMax = (-9999999, -9999999, -9999999) := by
  refine ⟨parseStl_empty, ?_, ?_⟩ <;>
    simp [gltfDoc, xsOf, ysOf, zsOf, vertexStream, foldMin, foldMax]

/-- C7 amended: a valid input with facet count 0 does not fail: the
converter emits empty index and vertex buffers (the payload is the empty
byte list), but the document carries the sentinel bounding box
min (9999999, 9999999, 9999999), max (-9999999, -9999999, -9999999) and
index-accessor max -1, rather than omitting those fields. -/
theorem C7_empty_input (bs : List ℕ) (enc : ℚ → List ℕ)
    (render : GltfDoc → List ℕ) (h : parseStl bs = Except.ok []) :
    stl_to_gltf_custom enc render bs false = Except.ok (gltfDoc [] false, [])
    ∧ indicesOf [] = []
    ∧ verticesOf [] = []
    ∧ (gltfDoc [] false).posMin = (9999999, 9999999, 9999999)
    ∧ (gltfDoc [] false).posMax = (-9999999, -9999999, -9999999)
    ∧ (gltfDoc [] false).idxMax = -1 := by
  refine ⟨?_, rfl, rfl, ?_, ?_, by decide⟩
  · rw [stl_to_gltf_custom, h]
    rfl
  · simp [gltfDoc, xsOf, ysOf, zsOf, vertexStream, foldMin]
  · simp [gltfDoc, xsOf, ysOf, zsOf, vertexStream, foldMax]

/-- Witness for C7 at the concrete 84-byte input. -/
theorem C7_empty_input_witness :
    stl_to_gltf_custom encZero renderNil emptyStl false
      = Except.ok (gltfDoc [] false, [])
    ∧ indicesOf [] = []
    ∧ verticesOf [] = []
    ∧ (gltfDoc [] false).posMin = (9999999, 9999999, 9999999)
    ∧ (gltfDoc [] false).posMax = (-9999999, -9999999, -9999999)
    ∧ (gltfDoc [] false).idxMax = -1 :=
  C7_empty_input emptyStl encZero renderNil parseStl_empty

/-- C1: on every valid input the declared byte layout of the glTF JSON
matches the packed buffer actually produced — index view at offset 0 with
the padded index-section length, position view at offset equal to the
padded index-section length with byteLength `12 · V`, declared buffer
byteLength equal to the number of payload bytes written, and the padded
index-section length a multiple of 4. -/
theorem C1_layout (enc : ℚ → List ℕ) (henc : ∀ q, (enc q).length = 4)
    (bs : List ℕ) (fs : List Facet) (m : Bool)
    (h : parseStl bs = Except.ok fs) :
    (gltfDoc fs m).view0ByteOffset = 0
    ∧ (gltfDoc fs m).view0ByteLength = pad4 (4 * (indicesOf fs).length)
    ∧ (gltfDoc fs m).view1ByteOffset = pad4 (4 * (indicesOf fs).length)
    ∧ (gltfDoc fs m).view1ByteLength = 12 * (verticesOf fs).length
    ∧ (gltfDoc fs m).bufferByteLength
        = (packedPayload enc (indicesOf fs) (verticesOf fs)).length
    ∧ pad4 (4 * (indicesOf fs).length) % 4 = 0 := by
  refine ⟨rfl, rfl, rfl, rfl, ?_, pad4_mod _⟩
  rw [packedPayload_length enc henc]
  rfl

/-- Witness for C1 at the Scenario A bytes with a concrete 4-byte
encoder. -/
theorem C1_layout_witness :
    (gltfDoc [facetA] false).view0ByteOffset = 0
    ∧ (gltfDoc [facetA] false).view0ByteLength
        = pad4 (4 * (indicesOf [facetA]).length)
    ∧ (gltfDoc [facetA] false).view1ByteOffset
        = pad4 (4 * (indicesOf [facetA]).length)
    ∧ (gltfDoc [facetA] false).view1ByteLength
        = 12 * (verticesOf [facetA]).length
    ∧ (gltfDoc [facetA] false).bufferByteLength
        = (packedPayload encZero (indicesOf [facetA]) (verticesOf [facetA])).length
    ∧ pad4 (4 * (indicesOf [facetA]).length) % 4 = 0 :=
  C1_layout encZero (fun _ => rfl) scenarioA [facetA] false parseStl_A

/-- C10: every index appended to the index buffer is a valid vertex index
in `[0, V)`, so the index accessor's declared min 0 and max `V - 1` bound
every index written. -/
theorem C10_index_bounds (fs : List Facet) (i : ℕ) (hi : i ∈ indicesOf fs) :
    i < (verticesOf fs).length
    ∧ (0 : ℤ) ≤ (i : ℤ)
    ∧ (i : ℤ) ≤ (gltfDoc fs false).idxMax := by
  have hb : i < (verticesOf fs).length := by
    have h := weld_index_bound ((vertexStream fs).map quantizeVec) ([], []) (by simp)
    exact h i hi
  refine ⟨hb, by positivity, ?_⟩
  show (i : ℤ) ≤ ((verticesOf fs).length : ℤ) - 1
  omega

/-- Witness for C10 at Scenario A, index entry 2. -/
theorem C10_index_bounds_witness :
    2 < (verticesOf [facetA]).length
    ∧ (0 : ℤ) ≤ ((2 : ℕ) : ℤ)
    ∧ ((2 : ℕ) : ℤ) ≤ (gltfDoc [facetA] false).idxMax :=
  C10_index_bounds [facetA] 2 (by rw [indicesOf_A]; decide)

/-- C8: Scenario A — the concrete single-triangle STL parses to the facet
with vertices (0,0,0), (1,0,0), (0,1,0) and converts to 3 unique
vertices, index buffer [0, 1, 2], bounding-box min (0,0,0) and
max (1,1,0). -/
theorem C8_scenarioA :
    parseStl scenarioA = Except.ok [facetA]
    ∧ (verticesOf [facetA]).length = 3
    ∧ indicesOf [facetA] = [0, 1, 2]
    ∧ (gltfDoc [facetA] false).posMin = (0, 0, 0)
    ∧ (gltfDoc [facetA] false).posMax = (1, 1, 0) := by
  refine ⟨parseStl_A, by rw [verticesOf_A]; rfl, indicesOf_A, ?_, ?_⟩
  · show (foldMin 9999999 (xsOf [facetA]), foldMin 9999999 (ysOf [facetA]),
        foldMin 9999999 (zsOf [facetA])) = (0, 0, 0)
    rw [xsOf_A, ysOf_A, zsOf_A]
    norm_num [foldMin]
  · show (foldMax (-9999999) (xsOf [facetA]), foldMax (-9999999) (ysOf [facetA]),
        foldMax (-9999999) (zsOf [facetA])) = (1, 1, 0)
    rw [xsOf_A, ysOf_A, zsOf_A]
    norm_num [foldMax]

lemma foldMin_sentinel (l : List ℚ) (hl : l ≠ [])
    (hub : ∀ c ∈ l, c ≤ 9999999) : foldMin 9999999 l = trueMin l := by
  cases l with
  | nil => exact absurd rfl hl
  | cons x xs =>
    rw [foldMin_cons]
    refine min_eq_right ?_
    have h1 : trueMin (x :: xs) ≤ x := by
      rw [trueMin]
      exact foldl_min_le_init xs x
    exact le_trans h1 (hub x (by simp))

lemma foldMax_sentinel (l : List ℚ) (hl : l ≠ [])
    (hlb : ∀ c ∈ l, -9999999 ≤ c) : foldMax (-9999999) l = trueMax l := by
  cases l with
  | nil => exact absurd rfl hl
  | cons x xs =>
    rw [foldMax_cons]
    refine max_eq_right ?_
    have h1 : x ≤ trueMax (x :: xs) := by
      rw [trueMax]
      exact foldl_max_init_le xs x
    exact le_trans (hlb x (by simp)) h1

lemma xsOf_ne_nil (fs : List Facet) (h : fs ≠ []) : xsOf fs ≠ [] := by
  cases fs with
  | nil => exact absurd rfl h
  | cons f t => simp [xsOf, vertexStream]

lemma ysOf_ne_nil (fs : List Facet) (h : fs ≠ []) : ysOf fs ≠ [] := by
  cases fs with
  | nil => exact absurd rfl h
  | cons f t => simp [ysOf, vertexStream]

lemma zsOf_ne_nil (fs : List Facet) (h : fs ≠ []) : zsOf fs ≠ [] := by
  cases fs with
  | nil => exact absurd rfl h
  | cons f t => simp [zsOf, vertexStream]

/-- C5 counterexample: the claim's "for any coordinate magnitudes" fails.
For a facet whose x coordinates all equal 10^7, the true minimum over the
quantized x coordinates is 10^7, but the emitted accessor min stays at
the sentinel 9999999, because the update `if x < minx` never fires when
every coordinate is at least the initial value 9999999. -/
theorem C5_counterexample :
    (gltfDoc [facetBig] false).posMin.1 = 9999999
    ∧ trueMin (xsOf [facetBig]) = 10000000
    ∧ (9999999 : ℚ) ≠ 10000000 := by
  refine ⟨?_, ?_, by norm_num⟩
  · show foldMin 9999999 (xsOf [facetBig]) = 9999999
    rw [xsOf_big]
    norm_num [foldMin]
  · rw [xsOf_big]
    norm_num [trueMin]

/-- C5 amended: for a nonempty facet list all of whose quantized
coordinates lie within the sentinel range [-9999999, 9999999], the
emitted accessor min/max equal, per axis, the true minimum and maximum
over all quantized vertex coordinates.  (In general the code emits
`min(9999999, true min)` and `max(-9999999, true max)`.) -/
theorem C5_bbox (fs : List Facet) (hne : fs ≠ [])
    (hx : ∀ c ∈ xsOf fs, -9999999 ≤ c ∧ c ≤ 9999999)
    (hy : ∀ c ∈ ysOf fs, -9999999 ≤ c ∧ c ≤ 9999999)
    (hz : ∀ c ∈ zsOf fs, -9999999 ≤ c ∧ c ≤ 9999999) :
    (gltfDoc fs false).posMin
      = (trueMin (xsOf fs), trueMin (ysOf fs), trueMin (zsOf fs))
    ∧ (gltfDoc fs false).posMax
      = (trueMax (xsOf fs), trueMax (ysOf fs), trueMax (zsOf fs)) := by
  constructor
  · show (foldMin 9999999 (xsOf fs), foldMin 9999999 (ysOf fs),
        foldMin 9999999 (zsOf fs)) = _
    rw [foldMin_sentinel (xsOf fs) (xsOf_ne_nil fs hne) (fun c hc => (hx c hc).2),
      foldMin_sentinel (ysOf fs) (ysOf_ne_nil fs hne) (fun c hc => (hy c hc).2),
      foldMin_sentinel (zsOf fs) (zsOf_ne_nil fs hne) (fun c hc => (hz c hc).2)]
  · show (foldMax (-9999999) (xsOf fs), foldMax (-9999999) (ysOf fs),
        foldMax (-9999999) (zsOf fs)) = _
    rw [foldMax_sentinel (xsOf fs) (xsOf_ne_nil fs hne) (fun c hc => (hx c hc).1),
      foldMax_sentinel (ysOf fs) (ysOf_ne_nil fs hne) (fun c hc => (hy c hc).1),
      foldMax_sentinel (zsOf fs) (zsOf_ne_nil fs hne) (fun c hc => (hz c hc).1)]

/-- Witness for C5 at Scenario A. -/
theorem C5_bbox_witness :
    (gltfDoc [facetA] false).posMin
      = (trueMin (xsOf [facetA]), trueMin (ysOf [facetA]), trueMin (zsOf [facetA]))
    ∧ (gltfDoc [facetA] false).posMax
      = (trueMax (xsOf [facetA]), trueMax (ysOf [facetA]), trueMax (zsOf [facetA])) :=
  C5_bbox [facetA] (by simp)
    (by intro c hc; rw [xsOf_A] at hc; simp at hc
        rcases hc with h | h | h <;> rw [h] <;> norm_num)
    (by intro c hc; rw [ysOf_A] at hc; simp at hc
        rcases hc with h | h <;> rw [h] <;> norm_num)
    (by intro c hc; rw [zsOf_A] at hc; simp at hc
        rw [hc]; norm_num)

/-- C4: vertex welding assigns indices in strict first-encounter order and
never reassigns them.  After any prefix of the vertex stream the table is
a prefix of the final table (indices, i.e. positions, are stable) and the
index buffer is the corresponding prefix of the final buffer; the final
indices are exactly the contiguous range `[0, N)` (each entry is below the
table size, and every position below the table size occurs); entries at
two stream positions agree exactly when the quantized keys agree. -/
theorem C4_welding (fs : List Facet) (n p q j : ℕ)
    (hp : p < ((vertexStream fs).map quantizeVec).length)
    (hq : q < ((vertexStream fs).map quantizeVec).length)
    (hj : j < (verticesOf fs).length) :
    (weld (((vertexStream fs).map quantizeVec).take n)).1
        = (verticesOf fs).take
            ((weld (((vertexStream fs).map quantizeVec).take n)).1.length)
    ∧ (weld (((vertexStream fs).map quantizeVec).take n)).2
        = (indicesOf fs).take ((((vertexStream fs).map quantizeVec).take n).length)
    ∧ (indicesOf fs).length = ((vertexStream fs).map quantizeVec).length
    ∧ (indicesOf fs).getD p 0 < (verticesOf fs).length
    ∧ j ∈ indicesOf fs
    ∧ (((vertexStream fs).map quantizeVec).getD p (0, 0, 0)
          = ((vertexStream fs).map quantizeVec).getD q (0, 0, 0)
        → (indicesOf fs).getD p 0 = (indicesOf fs).getD q 0)
    ∧ (((vertexStream fs).map quantizeVec).getD p (0, 0, 0)
          ≠ ((vertexStream fs).map quantizeVec).getD q (0, 0, 0)
        → (indicesOf fs).getD p 0 ≠ (indicesOf fs).getD q 0) := by
  set ks := (vertexStream fs).map quantizeVec with hks
  obtain ⟨ip, hip, hvp⟩ := weld_index_eq ks ([], []) p hp
  obtain ⟨iq, hiq, hvq⟩ := weld_index_eq ks ([], []) q hq
  have hvp' : (indicesOf fs).getD p 0 = ip := by simpa [indicesOf, weld] using hvp
  have hvq' : (indicesOf fs).getD q 0 = iq := by simpa [indicesOf, weld] using hvq
  have hipv : idxOfA (ks.getD p (0, 0, 0)) (verticesOf fs) = some ip := hip
  have hiqv : idxOfA (ks.getD q (0, 0, 0)) (verticesOf fs) = some iq := hiq
  refine ⟨(weld_take_verts ks n).symm, (weld_take_indices ks n).symm, ?_, ?_, ?_, ?_, ?_⟩
  · have h := weld_indices_length ks ([], [])
    simpa [indicesOf, weld] using h
  · rw [hvp']
    exact idxOfA_lt_length _ _ ip hipv
  · exact weld_index_surj ks ([], []) j (by simp) hj
  · intro hkey
    rw [hvp', hvq']
    rw [hkey] at hipv
    rw [hipv] at hiqv
    exact (Option.some.injEq _ _ ▸ hiqv : ip = iq)
  · intro hkey
    rw [hvp', hvq']
    intro heq
    apply hkey
    rw [heq] at hipv
    have h1 := idxOfA_getD (ks.getD p (0, 0, 0)) (0, 0, 0) (verticesOf fs) iq hipv
    have h2 := idxOfA_getD (ks.getD q (0, 0, 0)) (0, 0, 0) (verticesOf fs) iq hiqv
    rw [← h1, ← h2]

/-- Witness for C4 at Scenario A (prefix length 2, stream positions 0 and
1, table position 2). -/
theorem C4_welding_witness :
    (weld (((vertexStream [facetA]).map quantizeVec).take 2)).1
        = (verticesOf [facetA]).take
            ((weld (((vertexStream [facetA]).map quantizeVec).take 2)).1.length)
    ∧ (weld (((vertexStream [facetA]).map quantizeVec).take 2)).2
        = (indicesOf [facetA]).take
            ((((vertexStream [facetA]).map quantizeVec).take 2).length)
    ∧ (indicesOf [facetA]).length = ((vertexStream [facetA]).map quantizeVec).length
    ∧ (indicesOf [facetA]).getD 0 0 < (verticesOf [facetA]).length
    ∧ 2 ∈ indicesOf [facetA]
    ∧ (((vertexStream [facetA]).map quantizeVec).getD 0 (0, 0, 0)
          = ((vertexStream [facetA]).map quantizeVec).getD 1 (0, 0, 0)
        → (indicesOf [facetA]).getD 0 0 = (indicesOf [facetA]).getD 1 0)
    ∧ (((vertexStream [facetA]).map quantizeVec).getD 0 (0, 0, 0)
          ≠ ((vertexStream [facetA]).map quantizeVec).getD 1 (0, 0, 0)
        → (indicesOf [facetA]).getD 0 0 ≠ (indicesOf [facetA]).getD 1 0) :=
  C4_welding [facetA] 2 0 1 2
    (by rw [stream_A]; decide)
    (by rw [stream_A]; decide)
    (by rw [verticesOf_A]; decide)

/-- Byte length of the whole GLB stream. -/
lemma glbBytes_length (enc : ℚ → List ℕ) (henc : ∀ q, (enc q).length = 4)
    (scene indices : List ℕ) (verts : List (ℚ × ℚ × ℚ)) :
    (glbBytes enc scene indices verts).length
      = pad4 scene.length + 12 + 8
        + (pad4 (4 * indices.length) + 12 * verts.length) + 8 := by
  have hP := packedPayload_length enc henc indices verts
  have hle := le_pad4 scene.length
  simp only [glbBytes, List.length_append, u32le_length, List.length_replicate, hP]
  omega

/-- Shape of the GLB stream: header with magic, version 2 and the actual
total length, then the two chunks. -/
lemma glb_structure (enc : ℚ → List ℕ) (henc : ∀ q, (enc q).length = 4)
    (scene indices : List ℕ) (verts : List (ℚ × ℚ × ℚ)) :
    glbBytes enc scene indices verts
      = u32le 0x46546C67 ++ u32le 2 ++ u32le (glbBytes enc scene indices verts).length
        ++ u32le (pad4 scene.length) ++ u32le 0x4E4F534A
        ++ (scene ++ List.replicate (pad4 scene.length - scene.length) 32)
        ++ u32le (packedPayload enc indices verts).length ++ u32le 0x004E4942
        ++ packedPayload enc indices verts := by
  rw [glbBytes_length enc henc, packedPayload_length enc henc]
  simp only [glbBytes, List.append_assoc]

/-- C6: in container mode, the output of every successful conversion is a
12-byte header — magic 0x46546C67, version 2, declared total length equal
to the actual output length — followed by a JSON chunk (declared length =
padded JSON payload length, type 0x4E4F534A, payload padded with spaces
to a 4-byte boundary) and a BIN chunk (declared length = padded binary
payload length, type 0x004E4942, payload a multiple of 4 bytes). -/
theorem C6_glb (enc : ℚ → List ℕ) (henc : ∀ q, (enc q).length = 4)
    (render : GltfDoc → List ℕ) (bs : List ℕ) (d : GltfDoc) (g : List ℕ)
    (h : stl_to_gltf_custom enc render bs true = Except.ok (d, g)) :
    ∃ fs, parseStl bs = Except.ok fs
      ∧ g = u32le 0x46546C67 ++ u32le 2 ++ u32le g.length
          ++ u32le (pad4 (render d).length) ++ u32le 0x4E4F534A
          ++ ((render d)
              ++ List.replicate (pad4 (render d).length - (render d).length) 32)
          ++ u32le (packedPayload enc (indicesOf fs) (verticesOf fs)).length
          ++ u32le 0x004E4942
          ++ packedPayload enc (indicesOf fs) (verticesOf fs)
      ∧ ((render d)
            ++ List.replicate (pad4 (render d).length - (render d).length) 32).length
          = pad4 (render d).length
      ∧ pad4 (render d).length % 4 = 0
      ∧ (packedPayload enc (indicesOf fs) (verticesOf fs)).length % 4 = 0
      ∧ (u32le 0x46546C67 ++ u32le 2 ++ u32le g.length).length = 12 := by
  cases hparse : parseStl bs with
  | error e =>
    rw [stl_to_gltf_custom, hparse] at h
    cases h
  | ok fs =>
    rw [stl_to_gltf_custom, hparse] at h
    replace h : Except.ok (gltfDoc fs true,
        glbBytes enc (render (gltfDoc fs true)) (indicesOf fs) (verticesOf fs))
        = Except.ok (d, g) := h
    injection h with hpair
    injection hpair with h1 h2
    subst h1
    subst h2
    have hle := le_pad4 (render (gltfDoc fs true)).length
    have hJ : ((render (gltfDoc fs true))
          ++ List.replicate (pad4 (render (gltfDoc fs true)).length
              - (render (gltfDoc fs true)).length) 32).length
        = pad4 (render (gltfDoc fs true)).length := by
      simp only [List.length_append, List.length_replicate]
      omega
    have hBin : (packedPayload enc (indicesOf fs) (verticesOf fs)).length % 4 = 0 := by
      rw [packedPayload_length enc henc]
      have h4 := pad4_mod (4 * (indicesOf fs).length)
      omega
    exact ⟨fs, rfl,
      glb_structure enc henc (render (gltfDoc fs true)) (indicesOf fs) (verticesOf fs),
      hJ, pad4_mod _, hBin, rfl⟩

/-- Witness for C6: the converter run in GLB mode on the Scenario A
bytes. -/
theorem C6_glb_witness :
    ∃ fs, parseStl scenarioA = Except.ok fs
      ∧ glbBytes encZero (renderNil (gltfDoc [facetA] true)) (indicesOf [facetA])
            (verticesOf [facetA])
          = u32le 0x46546C67 ++ u32le 2
          ++ u32le (glbBytes encZero (renderNil (gltfDoc [facetA] true))
              (indicesOf [facetA]) (verticesOf [facetA])).length
          ++ u32le (pad4 (renderNil (gltfDoc [facetA] true)).length)
          ++ u32le 0x4E4F534A
          ++ ((renderNil (gltfDoc [facetA] true))
              ++ List.replicate (pad4 (renderNil (gltfDoc [facetA] true)).length
                  - (renderNil (gltfDoc [facetA] true)).length) 32)
          ++ u32le (packedPayload encZero (indicesOf fs) (verticesOf fs)).length
          ++ u32le 0x004E4942
          ++ packedPayload encZero (indicesOf fs) (verticesOf fs)
      ∧ ((renderNil (gltfDoc [facetA] true))
            ++ List.replicate (pad4 (renderNil (gltfDoc [facetA] true)).length
                - (renderNil (gltfDoc [facetA] true)).length) 32).length
          = pad4 (renderNil (gltfDoc [facetA] true)).length
      ∧ pad4 (renderNil (gltfDoc [facetA] true)).length % 4 = 0
      ∧ (packedPayload encZero (indicesOf fs) (verticesOf fs)).length % 4 = 0
      ∧ (u32le 0x46546C67 ++ u32le 2
          ++ u32le (glbBytes encZero (renderNil (gltfDoc [facetA] true))
              (indicesOf [facetA]) (verticesOf [facetA])).length).length = 12 :=
  C6_glb encZero (fun _ => rfl) renderNil scenarioA (gltfDoc [facetA] true)
    (glbBytes encZero (renderNil (gltfDoc [facetA] true)) (indicesOf [facetA])
      (verticesOf [facetA]))
    (by rw [stl_to_gltf_custom, parseStl_A]; rfl)

end StructViz
